import Mathlib

/-!
Verification of the AJP13 wire codec of `check_ajp` (files `ajp_request.go`,
`ajp_response.go`, `check_ajp.go`), shallowly embedded in Lean.

Go byte strings and `[]byte` values are modelled as `List Nat` of byte
values; an `io.Reader` is a `List Nat` that readers consume from the front,
returning the value read and the remaining stream.  Go's multiple-return
`(value, err)` convention becomes the `ReadRes` type below; a Go runtime
panic (e.g. `make([]byte, n)` with negative `n`, or an explicit `panic`
call) is a separate `panicked` outcome, distinct from a returned error
value.  `strings.ToLower` / `strings.ToUpper` are modelled on their ASCII
fragment, which is all the claims exercise.
-/

namespace CheckAjp

/-- Errors returned (as Go `error` values) by the decode path:
`eof` stands for the `io.EOF` / `io.ErrUnexpectedEOF` that `io.ReadFull`
and `binary.Read` return on a short read; `unknownDirection` is the
`errors.New(fmt.Sprintf("unknown direction: %v", direction))` of
`readResponse`. -/
inductive GoErr where
  | eof : GoErr
  | unknownDirection (dir : List Nat) : GoErr
  deriving DecidableEq, Repr

/-- Result of one read operation on the modelled stream: a value plus the
remaining stream, a returned Go error, or a Go runtime panic. -/
inductive ReadRes (α : Type) where
  | ok (val : α) (rest : List Nat) : ReadRes α
  | err (e : GoErr) : ReadRes α
  | panicked (msg : String) : ReadRes α
  deriving DecidableEq, Repr

/-- `readByte(r io.Reader, n int)` from `ajp_response.go`:
`data := make([]byte, n)` panics when `n` is negative
(`makeslice: len out of range`); otherwise `io.ReadFull` either fills the
buffer or reports a short read as an error. -/
def readByte (n : Int) (s : List Nat) : ReadRes (List Nat) :=
  if n < 0 then .panicked "makeslice: len out of range"
  else if s.length < n.toNat then .err .eof
  else .ok (s.take n.toNat) (s.drop n.toNat)

/-- `readUint16` from `ajp_response.go`: `binary.Read(r, binary.BigEndian,
&len)` reads 2 bytes big-endian, short read being an error. -/
def readUint16 (s : List Nat) : ReadRes Nat :=
  match s with
  | hi :: lo :: rest => .ok (256 * hi + lo) rest
  | _ => .err .eof

/-- `readUint8` from `ajp_response.go`: one byte. -/
def readUint8 (s : List Nat) : ReadRes Nat :=
  match s with
  | b :: rest => .ok b rest
  | _ => .err .eof

/-- `readBool` from `ajp_response.go`: one byte, `0x00` is `false`,
anything else `true`. -/
def readBool (s : List Nat) : ReadRes Bool :=
  match s with
  | b :: rest => .ok (if b = 0 then false else true) rest
  | _ => .err .eof

/-- `readStringN(r, len)` from `ajp_response.go`: `make([]byte, len+1)`,
`io.ReadFull`, then return `data[0:len]` — `len` content bytes plus one
terminator byte that is consumed and discarded. -/
def readStringN (len : Nat) (s : List Nat) : ReadRes (List Nat) :=
  if s.length < len + 1 then .err .eof
  else .ok (s.take len) (s.drop (len + 1))

/-- `readString` from `ajp_response.go`: 2-byte big-endian length, then
`readStringN` for that many content bytes plus the terminator. -/
def readString (s : List Nat) : ReadRes (List Nat) :=
  match readUint16 s with
  | .ok len rest => readStringN len rest
  | .err e => .err e
  | .panicked m => .panicked m

/-- `ResponseHeader` from `ajp_response.go` (both strings as byte lists). -/
structure ResponseHeader where
  name : List Nat
  value : List Nat
  deriving DecidableEq, Repr

/-- `AJP13Response` from `ajp_response.go`. -/
structure AJP13Response where
  statusCode : Nat
  statusMessage : List Nat
  headers : List ResponseHeader
  body : List Nat
  deriving DecidableEq, Repr

/-- The Go zero value `var res AJP13Response` that `readResponse` starts
from. -/
def initRes : AJP13Response := ⟨0, [], [], []⟩

/-- ASCII byte values of a literal string (all strings involved are
ASCII, where Go's UTF-8 bytes coincide with the code points). -/
def ascii (s : String) : List Nat := s.data.map Char.toNat

/-- The `SC_RES_HEADER` map of `ajp_response.go`, keyed by the 2-byte code
string; a missing key yields the Go zero value `""` (here `[]`).  The
value for `0xA0 0x04` really is the source's `"data"`. -/
def SC_RES_HEADER (c0 c1 : Nat) : List Nat :=
  if c0 = 0xA0 ∧ c1 = 0x01 then ascii "content-type"
  else if c0 = 0xA0 ∧ c1 = 0x02 then ascii "content-language"
  else if c0 = 0xA0 ∧ c1 = 0x03 then ascii "content-length"
  else if c0 = 0xA0 ∧ c1 = 0x04 then ascii "data"
  else if c0 = 0xA0 ∧ c1 = 0x05 then ascii "last-modified"
  else if c0 = 0xA0 ∧ c1 = 0x06 then ascii "location"
  else if c0 = 0xA0 ∧ c1 = 0x07 then ascii "set-cookie"
  else if c0 = 0xA0 ∧ c1 = 0x08 then ascii "set-cookie2"
  else if c0 = 0xA0 ∧ c1 = 0x09 then ascii "servlet-engine"
  else if c0 = 0xA0 ∧ c1 = 0x0A then ascii "status"
  else if c0 = 0xA0 ∧ c1 = 0x0B then ascii "www-authenticate"
  else []

/-- Result of `readResponseHeaders`, which mutates `res` in place in Go:
the (possibly partially updated) response comes back in both outcomes. -/
inductive HRes where
  | ok (res : AJP13Response) (rest : List Nat) : HRes
  | err (res : AJP13Response) (e : GoErr) : HRes
  | panicked (msg : String) : HRes
  deriving DecidableEq, Repr

/-- The header loop of `readResponseHeaders` (`for i := 0; i < num_headers;
i++`): read a 2-byte name code; when its first byte is `0xA0`, resolve the
name through `SC_RES_HEADER`, otherwise reinterpret the 2 bytes as a length
and read the name literally; then read the value; append. -/
def readHeaderEntries (n : Nat) (res : AJP13Response) (s : List Nat) : HRes :=
  match n with
  | 0 => .ok res s
  | k + 1 =>
    match readByte 2 s with
    | .err e => .err res e
    | .panicked m => .panicked m
    | .ok code s1 =>
      match code with
      | [c0, c1] =>
        if c0 = 0xA0 then
          match readString s1 with
          | .err e => .err res e
          | .panicked m => .panicked m
          | .ok v s2 =>
            readHeaderEntries k
              { res with headers := res.headers ++ [⟨SC_RES_HEADER c0 c1, v⟩] } s2
        else
          match readStringN (256 * c0 + c1) s1 with
          | .err e => .err res e
          | .panicked m => .panicked m
          | .ok nm s2 =>
            match readString s2 with
            | .err e => .err res e
            | .panicked m => .panicked m
            | .ok v s3 =>
              readHeaderEntries k
                { res with headers := res.headers ++ [⟨nm, v⟩] } s3
      | _ => .err res .eof

/-- `readResponseHeaders` from `ajp_response.go`: status code, status
message, header count, then the header entries. -/
def readResponseHeaders (res : AJP13Response) (s : List Nat) : HRes :=
  match readUint16 s with
  | .err e => .err res e
  | .panicked m => .panicked m
  | .ok sc s1 =>
    let res1 := { res with statusCode := sc }
    match readString s1 with
    | .err e => .err res1 e
    | .panicked m => .panicked m
    | .ok msg s2 =>
      let res2 := { res1 with statusMessage := msg }
      match readUint16 s2 with
      | .err e => .err res2 e
      | .panicked m => .panicked m
      | .ok num s3 => readHeaderEntries num res2 s3

/-- Outcome of one iteration of `readResponse`'s `for` loop. -/
inductive Step where
  | cont (res : AJP13Response) (rest : List Nat) : Step
  | done (res : AJP13Response) (rest : List Nat) (warned : Bool) : Step
  | fail (res : AJP13Response) (e : GoErr) : Step
  | panicked (msg : String) : Step
  deriving DecidableEq, Repr

/-- One iteration of `readResponse`'s loop (`ajp_response.go` lines
134–197): frame in `AB` + 2-byte length, read the 1-byte packet type,
subtract it from the remaining length, and dispatch.  `done` records
whether the end-response branch printed its stderr warning, and carries
the unconsumed remainder of the stream so that stream position is
observable. -/
def readPacket (res : AJP13Response) (s : List Nat) : Step :=
  match readByte 2 s with
  | .err e => .fail res e
  | .panicked m => .panicked m
  | .ok direction s1 =>
    if direction ≠ [65, 66] then .fail res (.unknownDirection direction)
    else
      match readUint16 s1 with
      | .err e => .fail res e
      | .panicked m => .panicked m
      | .ok segmentSize0 s2 =>
        match readUint8 s2 with
        | .err e => .fail res e
        | .panicked m => .panicked m
        | .ok tag s3 =>
          let segmentSize : Int := (segmentSize0 : Int) - 1
          if tag = 3 then
            -- AJP13_SEND_BODY_CHUNK
            match readUint16 s3 with
            | .err e => .fail res e
            | .panicked m => .panicked m
            | .ok chunkLength s4 =>
              let segmentSize2 := segmentSize - 2
              match readByte (chunkLength : Int) s4 with
              | .err e => .fail res e
              | .panicked m => .panicked m
              | .ok chunk s5 =>
                let res1 := { res with body := res.body ++ chunk }
                if segmentSize2 ≠ (chunkLength : Int) then
                  match readByte (segmentSize2 - (chunkLength : Int)) s5 with
                  | .err e => .fail res1 e
                  | .panicked m => .panicked m
                  | .ok _ s6 => .cont res1 s6
                else .cont res1 s5
          else if tag = 4 then
            -- AJP13_SEND_HEADERS
            match readResponseHeaders res s3 with
            | .err res1 e => .fail res1 e
            | .panicked m => .panicked m
            | .ok res1 s4 => .cont res1 s4
          else if tag = 5 then
            -- AJP13_END_RESPONSE
            match readBool s3 with
            | .err e => .fail res e
            | .panicked m => .panicked m
            | .ok _reuse s4 =>
              let segmentSize2 := segmentSize - 1
              if segmentSize2 ≠ 0 then
                -- fmt.Fprintf(os.Stderr, "[WARNING] ...") then drain
                match readByte (segmentSize2 - 1) s4 with
                | .err e => .fail res e
                | .panicked m => .panicked m
                | .ok _ s5 => .done res s5 true
              else .done res s4 false
          else if tag = 6 then
            -- AJP13_GET_BODY_CHUNK
            .panicked "GET_BODY_CHUNK response is not yet supported"
          else
            -- no case in the switch: fall through and loop again,
            -- the packet payload left unconsumed
            .cont res s3

/-! ## Request side (`ajp_request.go`) -/

/-- ASCII fragment of Go `strings.ToLower`. -/
def lowerByte (b : Nat) : Nat := if 65 ≤ b ∧ b ≤ 90 then b + 32 else b

/-- `strings.ToLower` on an ASCII byte string. -/
def lowerBytes (s : List Nat) : List Nat := s.map lowerByte

/-- ASCII fragment of Go `strings.ToUpper`. -/
def upperByte (b : Nat) : Nat := if 97 ≤ b ∧ b ≤ 122 then b - 32 else b

/-- `strings.ToUpper` on an ASCII byte string. -/
def upperBytes (s : List Nat) : List Nat := s.map upperByte

/-- The `SC_REQ_HEADER` map of `ajp_request.go`: request header name to
2-byte code; `none` models the nil result of a missing key. -/
def SC_REQ_HEADER (name : List Nat) : Option (List Nat) :=
  if name = ascii "accept" then some [0xA0, 0x01]
  else if name = ascii "accept-charset" then some [0xA0, 0x02]
  else if name = ascii "accept-encoding" then some [0xA0, 0x03]
  else if name = ascii "accept-language" then some [0xA0, 0x04]
  else if name = ascii "authorization" then some [0xA0, 0x05]
  else if name = ascii "connection" then some [0xA0, 0x06]
  else if name = ascii "content-type" then some [0xA0, 0x07]
  else if name = ascii "content-length" then some [0xA0, 0x08]
  else if name = ascii "cookie" then some [0xA0, 0x09]
  else if name = ascii "cookie2" then some [0xA0, 0x0A]
  else if name = ascii "host" then some [0xA0, 0x0B]
  else if name = ascii "pragma" then some [0xA0, 0x0C]
  else if name = ascii "referer" then some [0xA0, 0x0D]
  else if name = ascii "user-agent" then some [0xA0, 0x0E]
  else none

/-- The `METHOD` map of `ajp_request.go`; only GET and HEAD are populated,
and a missing key yields the Go zero value `0`, which is how `validate`
detects an unsupported method. -/
def METHOD (m : List Nat) : Nat :=
  if m = ascii "GET" then 2
  else if m = ascii "HEAD" then 3
  else 0

/-- `RequestHeader` from `ajp_request.go`. -/
structure RequestHeader where
  name : List Nat
  value : List Nat
  deriving DecidableEq, Repr

/-- `Attribute` from `ajp_request.go` (the code is the byte slice taken
from `SC_REQ_ATTR`). -/
structure Attribute where
  code : List Nat
  value : List Nat
  deriving DecidableEq, Repr

/-- `AJP13ForwardRequest` from `ajp_request.go`. -/
structure AJP13ForwardRequest where
  prefixCode : Nat
  method : List Nat
  uri : List Nat
  protocol : List Nat
  remoteAddr : List Nat
  remoteHost : List Nat
  serverName : List Nat
  serverPort : Nat
  isSsl : Bool
  headers : List RequestHeader
  attributes : List Attribute
  deriving DecidableEq, Repr

/-- 2-byte big-endian rendering of a non-negative integer, as the `struc`
tags `uint16` and `int16` pack it (higher bits discarded). -/
def enc16 (n : Nat) : List Nat := [n / 256 % 256, n % 256]

/-- `appendByte` (struc `uint8`). -/
def appendByte (n : Nat) : List Nat := [n % 256]

/-- `appendUint16` (struc `int16`, big-endian). -/
def appendUint16 (n : Nat) : List Nat := enc16 n

/-- `appendString` via the `encodeString` struc layout: `uint16` length
(`sizeof=Value`), the content bytes, then one zero pad byte. -/
def appendString (s : List Nat) : List Nat := enc16 s.length ++ s ++ [0]

/-- `appendBool` (struc `bool`). -/
def appendBool (b : Bool) : List Nat := [if b then 1 else 0]

/-- One header as `sendRequest` writes it: the 2-byte code when the
lower-cased name is in `SC_REQ_HEADER`, otherwise the *lower-cased* name
as a length-prefixed string; in both cases the value follows as a
length-prefixed string. -/
def encodeHeaderBytes (h : RequestHeader) : List Nat :=
  (match SC_REQ_HEADER (lowerBytes h.name) with
   | some code => code
   | none => appendString (lowerBytes h.name)) ++ appendString h.value

/-- One attribute as `sendRequest` writes it: its code bytes, then the
value as a length-prefixed string. -/
def encodeAttributeBytes (a : Attribute) : List Nat :=
  a.code ++ appendString a.value

/-- The `buf` assembled by `sendRequest` (`ajp_request.go` lines
175–204). -/
def sendRequestPayload (r : AJP13ForwardRequest) : List Nat :=
  appendByte r.prefixCode ++
  appendByte (METHOD r.method) ++
  appendString r.protocol ++
  appendString r.uri ++
  appendString r.remoteAddr ++
  appendString r.remoteHost ++
  appendString r.serverName ++
  appendUint16 r.serverPort ++
  appendBool r.isSsl ++
  appendUint16 r.headers.length ++
  (r.headers.map encodeHeaderBytes).flatten ++
  (r.attributes.map encodeAttributeBytes).flatten ++
  [0xFF]

/-- Everything `sendRequest` writes to the stream when no write fails:
the `0x12 0x34` magic, the 2-byte payload length, then the payload. -/
def sendRequestBytes (r : AJP13ForwardRequest) : List Nat :=
  [0x12, 0x34] ++ enc16 (sendRequestPayload r).length ++ sendRequestPayload r

/-- `validate` from `ajp_request.go`: a method whose `METHOD` lookup is
the zero value is unsupported. -/
def validate (r : AJP13ForwardRequest) : Option (List Nat) :=
  if METHOD r.method = 0 then some (r.method ++ ascii " method is not yet supported.")
  else none

/-- The `Options` fields consumed by `newAJP13ForwardRequest`. -/
structure Options where
  method : List Nat
  protocol : List Nat
  ssl : Bool
  uri : List Nat
  ipaddr : List Nat
  port : Nat
  remoteAddr : List Nat
  remoteHost : List Nat
  deriving DecidableEq, Repr

/-- `newAJP13ForwardRequest` from `ajp_request.go`: upper-cases the
method, copies the other options; the remote fields keep the zero value
`""` when the option is empty. -/
def newAJP13ForwardRequest (o : Options) : AJP13ForwardRequest where
  prefixCode := 2
  method := upperBytes o.method
  protocol := o.protocol
  isSsl := o.ssl
  uri := o.uri
  serverName := o.ipaddr
  serverPort := o.port
  remoteAddr := if o.remoteAddr ≠ [] then o.remoteAddr else []
  remoteHost := if o.remoteHost ≠ [] then o.remoteHost else []
  headers := []
  attributes := []

/-- The encode pipeline of `check_ajp.go` (lines 114–158) as it concerns
the codec: `req.validate()` runs first and `main` exits before
`sendRequest` is called when it fails, so `.error` means the validation
error with no bytes written, and `.ok` carries the bytes written. -/
def sendValidated (r : AJP13ForwardRequest) : Except (List Nat) (List Nat) :=
  match validate r with
  | some e => .error e
  | none => .ok (sendRequestBytes r)

/-- Error plumbing of `sendRequest` (`ajp_request.go` lines 206–215),
abstracting the destination writer as the sequence of error results its
successive write calls return (`none` = success).  Call 0 is
`w.Write([]byte{0x12, 0x34})` (the magic), call 1 the `struc.Pack` of the
2-byte length, call 2 the `w.Write(buf.Bytes())` of the payload.  The
source captures call 0's error into `err` but overwrites it with call 1's
result before ever checking it, so call 0's result never reaches the
return value. -/
def sendRequestErrResult (script : Nat → Option String) : Option String :=
  let _errMagic := script 0
  match script 1 with
  | some e => some e
  | none => script 2


/-! ## Statement-side definitions for the individual claims -/

/-- The request `main` (`check_ajp.go` lines 104–112) hands to
`validate`/`sendRequest`: the constructed request plus the parsed header
and attribute options. -/
def mainRequest (o : Options) (hs : List RequestHeader) (ats : List Attribute) :
    AJP13ForwardRequest :=
  { newAJP13ForwardRequest o with headers := hs, attributes := ats }

/-- A body-chunk packet as framed on the wire: `AB`, declared payload
length `3 + |c| + |pad|` (type tag, 2-byte chunk length, chunk, padding),
tag 3, the chunk length, the chunk bytes, then the padding bytes. -/
def chunkPacket (c pad : List Nat) : List Nat :=
  [65, 66] ++ enc16 (3 + c.length + pad.length) ++ [3] ++ enc16 c.length ++ c ++ pad

/-- Header encoding exactly as claim C3 words it: code-table lookup by the
lower-cased name, but an absent name written as given (not lower-cased). -/
def encodeHeaderBytesVerbatim (h : RequestHeader) : List Nat :=
  (match SC_REQ_HEADER (lowerBytes h.name) with
   | some code => code
   | none => appendString h.name) ++ appendString h.value

/-- Header encoding as the amended claim C3 words it: code-table lookup by
the lower-cased name, an absent name written lower-cased. -/
def encodeHeaderBytesLowered (h : RequestHeader) : List Nat :=
  (match SC_REQ_HEADER (lowerBytes h.name) with
   | some code => code
   | none => appendString (lowerBytes h.name)) ++ appendString h.value

/-- The framed forward-request byte layout as claim C3 describes it,
spelled out field by field and parameterised by the header encoding:
magic `0x12 0x34`, 2-byte payload length, then prefix byte 2, the 1-byte
method code, five length-prefixed strings, 2-byte port, 1-byte SSL flag,
2-byte header count, the headers, the attributes (1-byte code plus
length-prefixed value), and the `0xFF` terminator. -/
def sendRequestBytesSpec (encHdr : RequestHeader → List Nat)
    (r : AJP13ForwardRequest) : List Nat :=
  let payload :=
    [2] ++ [METHOD r.method] ++
    appendString r.protocol ++ appendString r.uri ++ appendString r.remoteAddr ++
    appendString r.remoteHost ++ appendString r.serverName ++
    enc16 r.serverPort ++ [if r.isSsl then 1 else 0] ++
    enc16 r.headers.length ++
    (r.headers.map encHdr).flatten ++
    (r.attributes.map (fun a => a.code ++ appendString a.value)).flatten ++
    [0xFF]
  [0x12, 0x34] ++ enc16 payload.length ++ payload

/-- A valid request (method GET, prefix code 2) carrying one header whose
mixed-case name `X-Foo` is not in the code table. -/
def c3Request : AJP13ForwardRequest :=
  { prefixCode := 2, method := ascii "GET", uri := ascii "/",
    protocol := ascii "HTTP/1.0", remoteAddr := [], remoteHost := [],
    serverName := [], serverPort := 8009, isSsl := false,
    headers := [⟨ascii "X-Foo", ascii "v"⟩], attributes := [] }

/-- A request exercising a code-table header, a literal header and a
query-string attribute. -/
def c3WitnessRequest : AJP13ForwardRequest :=
  { prefixCode := 2, method := ascii "HEAD", uri := ascii "/st",
    protocol := ascii "HTTP/1.1", remoteAddr := ascii "127.0.0.1",
    remoteHost := ascii "localhost", serverName := ascii "127.0.0.1",
    serverPort := 8009, isSsl := true,
    headers := [⟨ascii "content-type", ascii "text/plain"⟩,
                ⟨ascii "x-custom", ascii "1"⟩],
    attributes := [⟨[0x05], ascii "a=b"⟩] }

/-- Stream for the C1 counterexample: a CPong-reply packet (tag 9,
declared length 2: the tag plus one payload byte `0x00`) followed by a
minimal end-response packet. -/
def c1Stream : List Nat := [65, 66, 0, 2, 9, 0] ++ [65, 66, 0, 2, 5, 1]

/-! ## Lemmas -/

theorem readByte_ok_eq {n : Int} {s d r : List Nat} (h : readByte n s = .ok d r) :
    d = List.take n.toNat s ∧ r = List.drop n.toNat s ∧ n.toNat ≤ s.length := by
  unfold readByte at h
  split at h
  · exact ReadRes.noConfusion h
  · split at h
    · exact ReadRes.noConfusion h
    · injection h with h1 h2
      exact ⟨h1.symm, h2.symm, by omega⟩

theorem readUint16_ok_length {s r : List Nat} {v : Nat} (h : readUint16 s = .ok v r) :
    r.length + 2 = s.length := by
  rcases s with _ | ⟨hi, _ | ⟨lo, rest⟩⟩ <;> simp [readUint16] at h
  obtain ⟨-, h2⟩ := h
  simp [← h2]

theorem readUint8_ok_length {s r : List Nat} {v : Nat} (h : readUint8 s = .ok v r) :
    r.length + 1 = s.length := by
  rcases s with _ | ⟨b, rest⟩ <;> simp [readUint8] at h
  obtain ⟨-, h2⟩ := h
  simp [← h2]

theorem readBool_ok_length {s r : List Nat} {v : Bool} (h : readBool s = .ok v r) :
    r.length + 1 = s.length := by
  rcases s with _ | ⟨b, rest⟩ <;> simp [readBool] at h
  obtain ⟨-, h2⟩ := h
  simp [← h2]

theorem readStringN_ok_length {len : Nat} {s v r : List Nat}
    (h : readStringN len s = .ok v r) : r.length ≤ s.length := by
  unfold readStringN at h
  split at h
  · exact ReadRes.noConfusion h
  · injection h with h1 h2
    subst h2
    simp

theorem readString_ok_length {s v r : List Nat} (h : readString s = .ok v r) :
    r.length ≤ s.length := by
  unfold readString at h
  cases h1 : readUint16 s with
  | err e => rw [h1] at h; exact ReadRes.noConfusion h
  | panicked m => rw [h1] at h; exact ReadRes.noConfusion h
  | ok len s1 =>
    rw [h1] at h
    have := readUint16_ok_length h1
    have := readStringN_ok_length h
    omega

theorem readHeaderEntries_ok_length {n : Nat} {res res' : AJP13Response}
    {s r : List Nat} (h : readHeaderEntries n res s = .ok res' r) :
    r.length ≤ s.length := by
  induction n generalizing res s with
  | zero =>
    simp [readHeaderEntries] at h
    obtain ⟨-, h2⟩ := h
    simp [h2]
  | succ k ih =>
    unfold readHeaderEntries at h
    cases h1 : readByte 2 s with
    | err e => rw [h1] at h; exact HRes.noConfusion h
    | panicked m => rw [h1] at h; exact HRes.noConfusion h
    | ok code s1 =>
      rw [h1] at h
      obtain ⟨-, hs1, hlen⟩ := readByte_ok_eq h1
      have hs1len : s1.length ≤ s.length := by simp [hs1]
      rcases code with _ | ⟨c0, _ | ⟨c1, _ | ⟨c2, cr⟩⟩⟩
      · exact HRes.noConfusion h
      · exact HRes.noConfusion h
      · simp only at h
        split at h
        · cases h2 : readString s1 with
          | err e => rw [h2] at h; exact HRes.noConfusion h
          | panicked m => rw [h2] at h; exact HRes.noConfusion h
          | ok v s2 =>
            rw [h2] at h
            have := readString_ok_length h2
            have := ih h
            omega
        · cases h2 : readStringN (256 * c0 + c1) s1 with
          | err e => rw [h2] at h; exact HRes.noConfusion h
          | panicked m => rw [h2] at h; exact HRes.noConfusion h
          | ok nm s2 =>
            rw [h2] at h
            simp only at h
            cases h3 : readString s2 with
            | err e => rw [h3] at h; exact HRes.noConfusion h
            | panicked m => rw [h3] at h; exact HRes.noConfusion h
            | ok v s3 =>
              rw [h3] at h
              have := readStringN_ok_length h2
              have := readString_ok_length h3
              have := ih h
              omega
      · exact HRes.noConfusion h

theorem readResponseHeaders_ok_length {res res' : AJP13Response} {s r : List Nat}
    (h : readResponseHeaders res s = .ok res' r) : r.length ≤ s.length := by
  unfold readResponseHeaders at h
  cases h1 : readUint16 s with
  | err e => rw [h1] at h; exact HRes.noConfusion h
  | panicked m => rw [h1] at h; exact HRes.noConfusion h
  | ok sc s1 =>
    rw [h1] at h
    simp only at h
    cases h2 : readString s1 with
    | err e => rw [h2] at h; exact HRes.noConfusion h
    | panicked m => rw [h2] at h; exact HRes.noConfusion h
    | ok msg s2 =>
      rw [h2] at h
      simp only at h
      cases h3 : readUint16 s2 with
      | err e => rw [h3] at h; exact HRes.noConfusion h
      | panicked m => rw [h3] at h; exact HRes.noConfusion h
      | ok num s3 =>
        rw [h3] at h
        have := readUint16_ok_length h1
        have := readString_ok_length h2
        have := readUint16_ok_length h3
        have := readHeaderEntries_ok_length h
        omega

theorem readPacket_cont_length {res res' : AJP13Response} {s rest : List Nat}
    (h : readPacket res s = .cont res' rest) : rest.length < s.length := by
  unfold readPacket at h
  split at h
  · exact Step.noConfusion h
  · exact Step.noConfusion h
  · next direction s1 h1 =>
    obtain ⟨-, hs1, hlen2⟩ := readByte_ok_eq h1
    have hs1len : s1.length + 2 ≤ s.length := by
      subst hs1; rw [List.length_drop]; omega
    split at h
    · exact Step.noConfusion h
    · next hdir =>
      split at h
      · exact Step.noConfusion h
      · exact Step.noConfusion h
      · next segmentSize0 s2 h2 =>
        have hlen3 := readUint16_ok_length h2
        split at h
        · exact Step.noConfusion h
        · exact Step.noConfusion h
        · next tag s3 h3 =>
          have hlen4 := readUint8_ok_length h3
          simp only at h
          split at h
          · -- tag = 3: body chunk
            split at h
            · exact Step.noConfusion h
            · exact Step.noConfusion h
            · next chunkLength s4 h4 =>
              have hlen5 := readUint16_ok_length h4
              try simp only at h
              split at h
              · exact Step.noConfusion h
              · exact Step.noConfusion h
              · next chunk s5 h5 =>
                obtain ⟨-, hs5, -⟩ := readByte_ok_eq h5
                have hs5len : s5.length ≤ s4.length := by
                  subst hs5; rw [List.length_drop]; omega
                try simp only at h
                split at h
                · split at h
                  · exact Step.noConfusion h
                  · exact Step.noConfusion h
                  · next surplus s6 h6 =>
                    obtain ⟨-, hs6, -⟩ := readByte_ok_eq h6
                    have hs6len : s6.length ≤ s5.length := by
                      subst hs6; rw [List.length_drop]; omega
                    injection h with hres hrest
                    subst hrest
                    omega
                · injection h with hres hrest
                  subst hrest
                  omega
          · split at h
            · -- tag = 4: response headers
              split at h
              · exact Step.noConfusion h
              · exact Step.noConfusion h
              · next res1 s4 h4 =>
                have := readResponseHeaders_ok_length h4
                injection h with hres hrest
                subst hrest
                omega
            · split at h
              · -- tag = 5: end response, never yields .cont
                split at h
                · exact Step.noConfusion h
                · exact Step.noConfusion h
                · next reuse s4 h4 =>
                  try simp only at h
                  split at h
                  · split at h
                    · exact Step.noConfusion h
                    · exact Step.noConfusion h
                    · exact Step.noConfusion h
                  · exact Step.noConfusion h
              · split at h
                · -- tag = 6: panic, never .cont
                  exact Step.noConfusion h
                · -- unknown tag: only the frame header and tag were consumed
                  injection h with hres hrest
                  subst hrest
                  omega

/-- Overall outcome of `readResponse`: a returned `(res, nil)` pair —
together with the unread remainder of the stream and whether the
end-response branch printed its stderr warning — a returned non-nil
error, or a Go panic. -/
inductive Final where
  | ok (res : AJP13Response) (rest : List Nat) (warned : Bool) : Final
  | fail (res : AJP13Response) (e : GoErr) : Final
  | panicked (msg : String) : Final
  deriving DecidableEq, Repr

/-- The `for` loop of `readResponse`, one packet per iteration.  Each
`cont` step strictly shrinks the stream, so the loop terminates on any
finite stream. -/
def readResponseLoop (res : AJP13Response) (s : List Nat) : Final :=
  match h : readPacket res s with
  | .cont res1 rest => readResponseLoop res1 rest
  | .done res1 rest warned => .ok res1 rest warned
  | .fail res1 e => .fail res1 e
  | .panicked m => .panicked m
termination_by s.length
decreasing_by exact readPacket_cont_length h

/-- `readResponse(conn io.Reader)` from `ajp_response.go`, starting from
the zero-valued response. -/
def readResponse (s : List Nat) : Final := readResponseLoop initRes s

/-- Fuel-indexed version of the loop, used to evaluate `readResponse` on
concrete streams by kernel reduction; `readResponseLoopFuel_eq` shows it
agrees with `readResponseLoop` whenever the fuel exceeds the stream
length. -/
def readResponseLoopFuel : Nat → AJP13Response → List Nat → Final
  | 0, res, _ => .fail res .eof
  | fuel + 1, res, s =>
    match readPacket res s with
    | .cont res1 rest => readResponseLoopFuel fuel res1 rest
    | .done res1 rest warned => .ok res1 rest warned
    | .fail res1 e => .fail res1 e
    | .panicked m => .panicked m

theorem readResponseLoopFuel_eq {fuel : Nat} {res : AJP13Response} {s : List Nat}
    (hf : s.length < fuel) : readResponseLoopFuel fuel res s = readResponseLoop res s := by
  induction fuel generalizing res s with
  | zero => omega
  | succ k ih =>
    rw [readResponseLoop]
    cases hp : readPacket res s with
    | cont res1 rest =>
      have hlt := readPacket_cont_length hp
      simp only [readResponseLoopFuel, hp]
      exact ih (by omega)
    | done res1 rest warned => simp only [readResponseLoopFuel, hp]
    | fail res1 e => simp only [readResponseLoopFuel, hp]
    | panicked m => simp only [readResponseLoopFuel, hp]

theorem readResponse_eval (s : List Nat) :
    readResponse s = readResponseLoopFuel (s.length + 1) initRes s :=
  (readResponseLoopFuel_eq (by omega)).symm


/-! ## Evaluation lemmas for the readers -/

theorem readByte_two (b0 b1 : Nat) (r : List Nat) :
    readByte 2 (b0 :: b1 :: r) = .ok [b0, b1] r := by
  unfold readByte
  rw [if_neg (by omega), if_neg (by simp only [List.length_cons, Int.toNat_ofNat]; omega)]
  simp [List.take, List.drop]

theorem readUint16_enc16 (n : Nat) (r : List Nat) (h : n ≤ 65535) :
    readUint16 (enc16 n ++ r) = .ok n r := by
  simp only [enc16, List.cons_append, List.nil_append, readUint16, ReadRes.ok.injEq, and_true]
  omega

theorem readByte_exact (c r : List Nat) :
    readByte (c.length : Int) (c ++ r) = .ok c r := by
  unfold readByte
  rw [if_neg (by omega), if_neg (by simp)]
  simp [List.take_left' rfl, List.drop_left' rfl]

theorem readResponse_step_fail {s : List Nat} {res' : AJP13Response} {e : GoErr}
    (h : readPacket initRes s = .fail res' e) : readResponse s = .fail res' e := by
  rw [readResponse_eval]
  simp [readResponseLoopFuel, h]

theorem readResponse_step_panicked {s : List Nat} {m : String}
    (h : readPacket initRes s = .panicked m) : readResponse s = .panicked m := by
  rw [readResponse_eval]
  simp [readResponseLoopFuel, h]

theorem METHOD_lt (m : List Nat) : METHOD m < 256 := by
  unfold METHOD
  split
  · decide
  · split
    · decide
    · decide

/-! ## The claims -/

/-- C1 counterexample: a framed packet with the unhandled tag 9 and
declared length 2 leaves its payload byte unconsumed: only 5 bytes (the
4 framing bytes plus the tag) are consumed instead of 4 + 2, and decoding
the stream then fails with an unknown-direction error where the claim
predicts no error and a clean continuation at the next packet. -/
theorem c1_unknown_tag_counterexample :
    readPacket initRes c1Stream = .cont initRes (List.drop 5 c1Stream) ∧
    List.drop 5 c1Stream ≠ List.drop 6 c1Stream ∧
    readResponse c1Stream = .fail initRes (.unknownDirection [0, 65]) := by
  refine ⟨by decide, by decide, ?_⟩
  rw [readResponse_eval]
  decide

/-- C1 (amended): for every framed packet whose 1-byte type tag is not 3,
4, 5 or 6, the decode loop consumes only the 4 framing bytes and the
1-byte tag, extracting no data and reporting no error for that packet,
and leaves the declared payload unconsumed, so the stream position after
the packet equals the position before it plus 5, not plus 4 plus the
declared length. -/
theorem c1_unknown_tag_skips_payload (res : AJP13Response) (b2 b3 tag : Nat)
    (rest : List Nat) (h3 : tag ≠ 3) (h4 : tag ≠ 4) (h5 : tag ≠ 5) (h6 : tag ≠ 6) :
    readPacket res (65 :: 66 :: b2 :: b3 :: tag :: rest) = .cont res rest := by
  unfold readPacket
  simp only [readByte_two]
  simp [readUint16, readUint8, h3, h4, h5, h6]

/-- C1 witness: the amended statement at a concrete CPong-reply packet. -/
theorem c1_unknown_tag_skips_payload_witness :
    readPacket initRes (65 :: 66 :: 0 :: 2 :: 9 :: [0]) = .cont initRes [0] :=
  c1_unknown_tag_skips_payload initRes 0 2 9 [0] (by decide) (by decide) (by decide)
    (by decide)

/-- C2 (code-bug evidence): an end-response packet of declared length 4
(tag, reuse flag, two surplus bytes `7` and `8`) triggers the warning but
drains only one of the two surplus bytes — `readByte(conn, segmentSize-1)`
runs after `segmentSize` was already decremented for the reuse flag —
leaving byte `8` unread on the stream, where the claim says all
`declaredLength - 2` surplus bytes are drained; a packet of declared
length exactly 2 terminates with no warning and no surplus read, as the
claim states. -/
theorem c2_end_response_drain_off_by_one :
    readResponse [65, 66, 0, 4, 5, 1, 7, 8] = .ok initRes [8] true ∧
    readResponse [65, 66, 0, 2, 5, 1] = .ok initRes [] false := by
  constructor <;> (rw [readResponse_eval]; decide)

/-- C3 counterexample: for the valid request `c3Request`, whose header
name `X-Foo` is not in the code table, `sendRequest` writes the
lower-cased name `x-foo`, so its output differs from the claimed layout
in which the name is written as given. -/
theorem c3_layout_counterexample :
    sendRequestBytes c3Request ≠ sendRequestBytesSpec encodeHeaderBytesVerbatim c3Request := by
  decide

/-- C3 (amended): for every request with prefix code 2 (as every
constructed request has), `sendRequest` writes exactly the magic
`0x12 0x34`, the 2-byte big-endian payload length, and the payload in the
claimed field order, with one change: a header name absent from the code
table is written as its lower-cased form, not as given. -/
theorem c3_request_layout (r : AJP13ForwardRequest) (hp : r.prefixCode = 2) :
    sendRequestBytes r = sendRequestBytesSpec encodeHeaderBytesLowered r := by
  unfold sendRequestBytes sendRequestPayload sendRequestBytesSpec appendByte appendUint16
    appendBool encodeHeaderBytes encodeHeaderBytesLowered encodeAttributeBytes
  rw [hp, Nat.mod_eq_of_lt (METHOD_lt r.method)]

/-- C3 witness: the amended layout at a concrete request carrying a
code-table header, a literal header and an attribute. -/
theorem c3_request_layout_witness :
    sendRequestBytes c3WitnessRequest =
      sendRequestBytesSpec encodeHeaderBytesLowered c3WitnessRequest :=
  c3_request_layout c3WitnessRequest rfl

/-- C4 counterexample: on a stream whose packet carries tag 6,
`readResponse` aborts by panicking (a Go runtime abort, modelled as the
`panicked` outcome) and produces no returned error value: no `fail`
outcome exists for this input, contradicting the claim that the failure
is returned as an explicit failure value. -/
theorem c4_panic_counterexample :
    readResponse [65, 66, 0, 2, 6, 0] =
      .panicked "GET_BODY_CHUNK response is not yet supported" ∧
    ¬ ∃ res e, readResponse [65, 66, 0, 2, 6, 0] = Final.fail res e := by
  have hv : readResponse [65, 66, 0, 2, 6, 0] =
      .panicked "GET_BODY_CHUNK response is not yet supported" := by
    rw [readResponse_eval]; decide
  refine ⟨hv, ?_⟩
  rintro ⟨res, e, h⟩
  rw [hv] at h
  exact Final.noConfusion h

/-- C4 (amended): every framed packet with tag 6 makes `readResponse`
abort decoding at that packet with the distinct panic message
`GET_BODY_CHUNK response is not yet supported` — an abnormal termination,
not a returned error value — regardless of the declared payload length or
content, and decoding never continues past it. -/
theorem c4_get_body_chunk_panics (res : AJP13Response) (b2 b3 : Nat) (rest : List Nat) :
    readPacket res (65 :: 66 :: b2 :: b3 :: 6 :: rest) =
      .panicked "GET_BODY_CHUNK response is not yet supported" ∧
    readResponse (65 :: 66 :: b2 :: b3 :: 6 :: rest) =
      .panicked "GET_BODY_CHUNK response is not yet supported" := by
  have key : ∀ r : AJP13Response, readPacket r (65 :: 66 :: b2 :: b3 :: 6 :: rest) =
      .panicked "GET_BODY_CHUNK response is not yet supported" := by
    intro r
    unfold readPacket
    simp only [readByte_two]
    simp [readUint16, readUint8]
  exact ⟨key res, readResponse_step_panicked (key initRes)⟩

/-- C5: whenever the next frame begins with two bytes other than `A` `B`,
the dispatch step fails with the unknown-direction framing error from any
partial response, and `readResponse` on such a stream returns that error,
never a successful (partially populated) response. -/
theorem c5_unknown_direction (b0 b1 : Nat) (rest : List Nat) (res : AJP13Response)
    (hne : ¬(b0 = 65 ∧ b1 = 66)) :
    readPacket res (b0 :: b1 :: rest) = .fail res (.unknownDirection [b0, b1]) ∧
    readResponse (b0 :: b1 :: rest) = .fail initRes (.unknownDirection [b0, b1]) := by
  have key : ∀ r : AJP13Response, readPacket r (b0 :: b1 :: rest) =
      .fail r (.unknownDirection [b0, b1]) := by
    intro r
    unfold readPacket
    simp only [readByte_two]
    rw [if_pos (by simpa using hne)]
  exact ⟨key res, readResponse_step_fail (key initRes)⟩

/-- C5 witness: the statement at the concrete stream `BA`. -/
theorem c5_unknown_direction_witness :
    readPacket initRes [66, 65] = .fail initRes (.unknownDirection [66, 65]) ∧
    readResponse [66, 65] = .fail initRes (.unknownDirection [66, 65]) :=
  c5_unknown_direction 66 65 [] initRes (by decide)

/-- C6: for every string of length at most 65535 (the empty string
included), decoding its length-prefixed encoding — 2-byte big-endian
length, content, one trailing zero byte not counted in the length —
yields the string back exactly with the trailing zero byte consumed and
discarded: `readString` after `appendString` is the identity, whatever
follows on the stream. -/
theorem c6_string_roundtrip (s rest : List Nat) (hlen : s.length ≤ 65535) :
    readString (appendString s ++ rest) = .ok s rest := by
  have hT : appendString s ++ rest = enc16 s.length ++ (s ++ ([0] ++ rest)) := by
    simp [appendString]
  rw [hT]
  unfold readString
  simp only [readUint16_enc16 _ _ hlen]
  unfold readStringN
  rw [if_neg (by simp)]
  congr 1
  · exact List.take_left' rfl
  · rw [show s ++ ([0] ++ rest) = (s ++ [0]) ++ rest from by simp]
    exact List.drop_left' (by simp)

/-- C6 witness: round trip of the empty string and of `OK`. -/
theorem c6_string_roundtrip_witness :
    readString (appendString [] ++ []) = .ok [] [] ∧
    readString (appendString [79, 75] ++ [7]) = .ok [79, 75] [7] :=
  ⟨c6_string_roundtrip [] [] (by decide), c6_string_roundtrip [79, 75] [7] (by decide)⟩

/-- C7: a body-chunk packet appends exactly its chunk bytes to the
accumulated body and hands the loop the stream positioned after the
packet, reading and discarding any declared surplus padding without
error; concretely, chunks `He` then `llo` followed by a minimal
end-response packet decode to the body `Hello`, the chunk boundary
invisible. -/
theorem c7_body_chunks (res : AJP13Response) (c pad rest : List Nat)
    (hc : c.length ≤ 65535) (hl : 3 + c.length + pad.length ≤ 65535) :
    readPacket res (chunkPacket c pad ++ rest) =
      .cont { res with body := res.body ++ c } rest ∧
    readResponse (chunkPacket [72, 101] [] ++
        (chunkPacket [108, 108, 111] [] ++ [65, 66, 0, 2, 5, 1])) =
      .ok { initRes with body := [72, 101, 108, 108, 111] } [] false := by
  refine ⟨?_, by rw [readResponse_eval]; decide⟩
  have hT : chunkPacket c pad ++ rest =
      65 :: 66 :: (enc16 (3 + c.length + pad.length) ++
        (3 :: (enc16 c.length ++ (c ++ (pad ++ rest))))) := by
    simp [chunkPacket, enc16]
  rw [hT]
  unfold readPacket
  simp only [readByte_two]
  rw [if_neg (by simp)]
  simp only [readUint16_enc16 _ _ hl]
  simp only [readUint8]
  simp only [if_true]
  simp only [readUint16_enc16 _ _ hc]
  simp only [readByte_exact]
  simp only [show ((3 + c.length + pad.length : Nat) : Int) - 1 - 2 - (c.length : Int) =
    ((pad.length : Nat) : Int) from by push_cast; ring]
  simp only [readByte_exact]
  split
  · rfl
  · next hcond =>
    have hp : pad = [] := by
      rw [not_not] at hcond
      have : pad.length = 0 := by
        have := hcond
        push_cast at this
        omega
      exact List.length_eq_zero.mp this
    subst hp
    simp

/-- C7 witness: a chunk `He` with two padding bytes, followed by residual
stream `[1, 2]`. -/
theorem c7_body_chunks_witness :
    readPacket initRes (chunkPacket [72, 101] [9, 9] ++ [1, 2]) =
      .cont { initRes with body := [72, 101] } [1, 2] :=
  (c7_body_chunks initRes [72, 101] [9, 9] [1, 2] (by decide) (by decide)).1

/-- C8: under the pipeline ordering of `main` (validate first, exit before
any write on failure), a request whose method does not normalize to GET
or HEAD fails validation with no bytes written, and one whose method does
passes validation, the encoded method-code byte (offset 5 of the framed
output) being the code of the normalized uppercase method. -/
theorem c8_method_validation (o : Options) (hs : List RequestHeader) (ats : List Attribute) :
    ((upperBytes o.method ≠ ascii "GET" ∧ upperBytes o.method ≠ ascii "HEAD") →
      sendValidated (mainRequest o hs ats) =
        .error (upperBytes o.method ++ ascii " method is not yet supported.")) ∧
    ((upperBytes o.method = ascii "GET" ∨ upperBytes o.method = ascii "HEAD") →
      sendValidated (mainRequest o hs ats) = .ok (sendRequestBytes (mainRequest o hs ats)) ∧
      (sendRequestBytes (mainRequest o hs ats))[5]? = some (METHOD (upperBytes o.method))) := by
  constructor
  · rintro ⟨h1, h2⟩
    have h0 : METHOD (mainRequest o hs ats).method = 0 := by
      show METHOD (upperBytes o.method) = 0
      unfold METHOD
      rw [if_neg h1, if_neg h2]
    unfold sendValidated validate
    rw [if_pos h0]
    rfl
  · intro hm
    have h0 : ¬ METHOD (mainRequest o hs ats).method = 0 := by
      show ¬ METHOD (upperBytes o.method) = 0
      rcases hm with hm | hm <;> rw [hm] <;> decide
    refine ⟨by unfold sendValidated validate; rw [if_neg h0], ?_⟩
    have hbyte : sendRequestBytes (mainRequest o hs ats) =
        18 :: 52 :: ((sendRequestPayload (mainRequest o hs ats)).length / 256 % 256) ::
        ((sendRequestPayload (mainRequest o hs ats)).length % 256) :: (2 % 256) ::
        (METHOD (upperBytes o.method) % 256) ::
        (appendString (mainRequest o hs ats).protocol ++
         appendString (mainRequest o hs ats).uri ++
         appendString (mainRequest o hs ats).remoteAddr ++
         appendString (mainRequest o hs ats).remoteHost ++
         appendString (mainRequest o hs ats).serverName ++
         appendUint16 (mainRequest o hs ats).serverPort ++
         appendBool (mainRequest o hs ats).isSsl ++
         appendUint16 (mainRequest o hs ats).headers.length ++
         ((mainRequest o hs ats).headers.map encodeHeaderBytes).flatten ++
         ((mainRequest o hs ats).attributes.map encodeAttributeBytes).flatten ++
         [0xFF]) := by
      unfold sendRequestBytes sendRequestPayload appendByte enc16
      simp [List.append_assoc]
      exact ⟨rfl, rfl⟩
    rw [hbyte]
    simp
    exact METHOD_lt _

/-- C8 witness: method `POST` fails validation with no bytes written;
mixed-case `get` normalizes to `GET` and its code 2 is the byte encoded. -/
theorem c8_method_validation_witness :
    (sendValidated (mainRequest
        ⟨ascii "POST", ascii "HTTP/1.0", false, ascii "/", ascii "127.0.0.1", 8009, [], []⟩ [] []) =
      .error (upperBytes (ascii "POST") ++ ascii " method is not yet supported.")) ∧
    (sendValidated (mainRequest
        ⟨ascii "get", ascii "HTTP/1.0", false, ascii "/", ascii "127.0.0.1", 8009, [], []⟩ [] []) =
      .ok (sendRequestBytes (mainRequest
        ⟨ascii "get", ascii "HTTP/1.0", false, ascii "/", ascii "127.0.0.1", 8009, [], []⟩ [] [])) ∧
      (sendRequestBytes (mainRequest
        ⟨ascii "get", ascii "HTTP/1.0", false, ascii "/", ascii "127.0.0.1", 8009, [], []⟩ [] []))[5]? =
        some (METHOD (upperBytes (ascii "get")))) :=
  ⟨(c8_method_validation _ [] []).1 ⟨by decide, by decide⟩,
   (c8_method_validation _ [] []).2 (Or.inl (by decide))⟩

/-- C9 (code-bug evidence): with the writer modelled by the sequence of
error results of the three successive write calls `sendRequest` makes, a
writer whose first call (the `0x12 0x34` magic) fails while the later
calls succeed makes `sendRequest` return success — the captured error is
overwritten unchecked by the next call's result — while failures of the
second (length) and third (payload) calls are propagated; and every short
read in the decode path is a returned I/O error, not a silent
truncation. -/
theorem c9_magic_write_error_dropped :
    sendRequestErrResult (fun i => if i = 0 then some "write: broken pipe" else none) = none ∧
    sendRequestErrResult (fun _ => some "write: broken pipe") = some "write: broken pipe" ∧
    sendRequestErrResult (fun i => if i = 2 then some "write: broken pipe" else none) =
      some "write: broken pipe" ∧
    readByte 2 [18] = .err .eof :=
  ⟨rfl, rfl, rfl, rfl⟩

/-- C10: the concrete stream whose body-chunk packet declares payload
length 4 (so 1 byte remains after tag and chunk length) but chunk length
2 drives the surplus drain to `readByte(conn, 1 - 2)`; the modelled
`make([]byte, -1)` panics, so `readResponse` panics instead of returning
an error value. -/
theorem c10_negative_surplus_panics :
    readResponse [65, 66, 0, 4, 3, 0, 2, 88, 89] = .panicked "makeslice: len out of range" := by
  rw [readResponse_eval]
  decide

end CheckAjp
